import Mathlib

/-!
Verification of the DSIRE record-to-table transformation
(`src/derdata/dsire/parse.py`) against its specification.

The Python code is shallowly embedded:
* JSON documents (as produced by `json.load`) are the inductive type `JValue`;
  JSON numbers are modelled as rationals (`Rat`), so both ints and floats are
  covered exactly for every value the claims exercise; Python `float` values
  are `PyFloat` (an exact rational or one of the `inf`/`-inf`/`nan` specials
  `float(str)` also produces); binary rounding of decimal literals is outside
  the model (no claim depends on it).
* Python `None` and JSON `null` coincide (as they do in `json.load` output),
  both are `JValue.null`; `dict.get` of an absent key is also `JValue.null`.
* Fallible operations (attribute errors on non-dicts, `TypeError` from
  string-joining non-strings, pydantic validation errors, the pandas
  `KeyError` on sorting an empty frame) are embedded as `Except Err`.
* Operations the source wraps in try/except (`float(...)`,
  `dateutil.parser.parse`) become total functions returning `Option`.
-/

/-- A JSON value in memory, as produced by `json.load`.  Objects are
association lists; the raw snapshots are assumed to have unique keys per
object (as `json.load` guarantees after its own last-wins resolution). -/
inductive JValue where
  | null : JValue
  | bool : Bool → JValue
  | num : Rat → JValue
  | str : String → JValue
  | arr : List JValue → JValue
  | obj : List (String × JValue) → JValue
deriving Repr

/-- Errors propagated by the embedded code (Python exception, abridged). -/
abbrev Err := String

/-- Python truthiness of a JSON-shaped value. -/
def truthy : JValue → Bool
  | .null => false
  | .bool b => b
  | .num q => q != 0
  | .str s => s != ""
  | .arr l => !l.isEmpty
  | .obj l => !l.isEmpty

/-- Python `a or b` on JSON-shaped values. -/
def pyOr (a b : JValue) : JValue := if truthy a then a else b

/-- `v is None`. -/
def isNull : JValue → Bool
  | .null => true
  | _ => false

def isStrB : JValue → Bool
  | .str _ => true
  | _ => false

/-- Lookup in an object, `dict.get`: absent key gives `None` (`JValue.null`). -/
def objGet (fs : List (String × JValue)) (k : String) : JValue :=
  match fs.find? (fun p => p.1 == k) with
  | some p => p.2
  | none => .null

/-- `r.get(k)` as executed: raises `AttributeError` when `r` is not a dict. -/
def recordGet (r : JValue) (k : String) : Except Err JValue :=
  match r with
  | .obj fs => .ok (objGet fs k)
  | _ => .error "AttributeError: get on non-dict"

/-- Python iteration `for x in v`: lists yield elements, dicts yield their
keys, strings yield their characters, everything else raises `TypeError`.
Only reached on truthy values (falsy ones are replaced by `[]` via `or []`
first, see `pyOr`). -/
def pyIter : JValue → Except Err (List JValue)
  | .arr l => .ok l
  | .obj fs => .ok (fs.map (fun p => .str p.1))
  | .str s => .ok (s.data.map (fun c => .str (String.mk [c])))
  | _ => .error "TypeError: not iterable"

mutual

/-- Structural part of Python `==` for JSON-shaped values (lists/dicts). -/
def jvalBEq : JValue → JValue → Bool
  | .null, .null => true
  | .bool a, .bool b => a == b
  | .num a, .num b => a == b
  | .str a, .str b => a == b
  | .arr a, .arr b => jvalListBEq a b
  | .obj a, .obj b => jvalObjBEq a b
  | _, _ => false

def jvalListBEq : List JValue → List JValue → Bool
  | [], [] => true
  | a :: as_, b :: bs => jvalBEq a b && jvalListBEq as_ bs
  | _, _ => false

def jvalObjBEq : List (String × JValue) → List (String × JValue) → Bool
  | [], [] => true
  | (ka, va) :: as_, (kb, vb) :: bs => ka == kb && jvalBEq va vb && jvalObjBEq as_ bs
  | _, _ => false

end

/-- Numeric view shared by Python numbers and booleans (`True == 1`). -/
def ratOfNumLike : JValue → Option Rat
  | .num q => some q
  | .bool b => some (if b then 1 else 0)
  | _ => none

/-- Python `==` on JSON-shaped values.  Numbers and booleans compare
numerically; for nested containers the structural fallback is an
approximation of Python elementwise equality — it is only ever applied by
`join_unique` to values that subsequently make the join raise, so the
approximation is unobservable in every embedded result. -/
def pyEq (a b : JValue) : Bool :=
  match ratOfNumLike a, ratOfNumLike b with
  | some x, some y => x == y
  | _, _ =>
    match a, b with
    | .str s, .str t => s == t
    | .null, .null => true
    | _, _ => jvalBEq a b

/-- The Unicode whitespace class Python uses in `str.strip()`, in
`float(str)` stripping and in the regex `\s` for `str` patterns: the ASCII
blanks, the `\x1c`-`\x1f` separators, NEL, NBSP and the Unicode space
separators. -/
def pyWS (c : Char) : Bool :=
  c == ' ' || c == '\t' || c == '\n' || c == '\r' || c == '\x0b' || c == '\x0c'
    || c == '\x1c' || c == '\x1d' || c == '\x1e' || c == '\x1f'
    || c == '\x85' || c == '\xa0' || c == '\u1680'
    || (0x2000 ≤ c.toNat && c.toNat ≤ 0x200a)
    || c == '\u2028' || c == '\u2029' || c == '\u202f' || c == '\u205f' || c == '\u3000'

/-- `str.strip()`. -/
def pyStrip (s : String) : String :=
  String.mk (((s.data.dropWhile pyWS).reverse.dropWhile pyWS).reverse)

/-- Python `str(v)`.  Exact for strings, ints, booleans and `None`; the
`repr` of non-integral floats and of containers is abbreviated (the embedded
code only ever applies `str` to strings, to parameter `units` values and to
utility `EIA_id` values, and no claim depends on a non-integral or container
rendering). -/
def pyStr : JValue → String
  | .str s => s
  | .num q => if q.den == 1 then toString q.num else toString q
  | .bool b => if b then "True" else "False"
  | .null => "None"
  | .arr _ => "<list>"
  | .obj _ => "<dict>"

/-- `_join_unique`: keep truthy values in first-encounter order, dropping
duplicates (Python `in`, i.e. `pyEq`), then join with a semicolon.
`"; ".join` raises `TypeError` when a collected value is not a string. -/
def join_unique (items : List JValue) : Except Err (Option String) :=
  let seen := items.foldl
    (fun acc x => if truthy x && !(acc.any (fun y => pyEq x y)) then acc ++ [x] else acc) []
  if seen.isEmpty then .ok none
  else if seen.all isStrB then
    .ok (some (String.intercalate "; " (seen.map pyStr)))
  else .error "TypeError: join on non-str"

/-- Split off the chars before the first `>` from those after it. -/
def splitAtGt : List Char → Option (List Char × List Char)
  | [] => none
  | c :: cs =>
    if c == '>' then some ([], cs)
    else
      match splitAtGt cs with
      | some (b, a) => some (c :: b, a)
      | none => none

/-- `re.sub(r"<[^>]+>", "", s)` on a char list.  At each `<`, scan to the
next `>`; a span with at least one char between the brackets is removed
(regardless of its content, including further `<`), otherwise the `<` is
kept.  Fuel-driven scan (fuel bounds the number of positions processed and
is instantiated with the list length, which always suffices since each step
consumes at least one char). -/
def removeTagsAux : Nat → List Char → List Char
  | 0, cs => cs
  | _ + 1, [] => []
  | fuel + 1, c :: cs =>
    if c == '<' then
      match splitAtGt cs with
      | some (between, after) =>
        if between.isEmpty then c :: removeTagsAux fuel cs
        else removeTagsAux fuel after
      | none => c :: removeTagsAux fuel cs
    else c :: removeTagsAux fuel cs

def removeTags (cs : List Char) : List Char := removeTagsAux cs.length cs

/-- Consume an exact char-list literal. -/
def stripLit : List Char → List Char → Option (List Char)
  | [], s => some s
  | _ :: _, [] => none
  | p :: ps, c :: cs => if c == p then stripLit ps cs else none

/-- The HTML entities decoded by the model.  `html.unescape` knows the full
HTML5 table; the snapshots and all claim inputs only involve these (an
unknown entity is left verbatim, which also matches `html.unescape`). -/
def entityMatch (cs : List Char) : Option (Char × List Char) :=
  match stripLit "amp;".data cs with
  | some r => some ('&', r)
  | none =>
  match stripLit "lt;".data cs with
  | some r => some ('<', r)
  | none =>
  match stripLit "gt;".data cs with
  | some r => some ('>', r)
  | none =>
  match stripLit "quot;".data cs with
  | some r => some ('"', r)
  | none =>
  match stripLit "#39;".data cs with
  | some r => some ('\x27', r)
  | none =>
  match stripLit "nbsp;".data cs with
  | some r => some ('\xa0', r)
  | none => none

/-- `html.unescape` (restricted to `entityMatch`), fuel-driven as above. -/
def unescapeAux : Nat → List Char → List Char
  | 0, cs => cs
  | _ + 1, [] => []
  | fuel + 1, c :: cs =>
    if c == '&' then
      match entityMatch cs with
      | some (ch, rest) => ch :: unescapeAux fuel rest
      | none => c :: unescapeAux fuel cs
    else c :: unescapeAux fuel cs

def unescapeHtml (s : String) : String := String.mk (unescapeAux s.data.length s.data)

/-- Exact (case-sensitive) literal prefix match, returning the rest. -/
def stripExact : List Char → List Char → Option (List Char)
  | [], s => some s
  | _ :: _, [] => none
  | p :: ps, c :: cs => if c == p then stripExact ps cs else none

/-- Python `str.replace` on char lists: scan left to right, replacing
non-overlapping occurrences of the (non-empty) literal pattern.  Fuel is
the input length, which suffices since each step consumes at least one
char. -/
def replaceSub (pat rep : List Char) : Nat → List Char → List Char
  | 0, cs => cs
  | _ + 1, [] => []
  | fuel + 1, c :: cs =>
    match stripExact pat (c :: cs) with
    | some rest => rep ++ replaceSub pat rep fuel rest
    | none => c :: replaceSub pat rep fuel cs

/-- Python `s.replace(pat, rep)` for a non-empty literal pattern. -/
def strReplace (s pat rep : String) : String :=
  String.mk (replaceSub pat.data rep.data s.data.length s.data)

/-- `_strip_html`: `None` for non-strings and whitespace-only strings, else
`<br>` variants become newlines, remaining tags are removed, entities are
decoded, the result is stripped, and an empty result becomes `None`. -/
def strip_html (v : JValue) : Option String :=
  match v with
  | .str s =>
    if pyStrip s == "" then none
    else
      let s1 := strReplace (strReplace (strReplace s "<br />" "\n") "<br/>" "\n") "<br>" "\n"
      let s2 := String.mk (removeTags s1.data)
      let s3 := pyStrip (unescapeHtml s2)
      if s3 == "" then none else some s3
  | _ => none

/-- Digits of a numeral, most significant first, as a natural number. -/
def natOfDigits (ds : List Char) : Nat :=
  ds.foldl (fun n c => 10 * n + (c.toNat - 48)) 0

/-- A Python `float` value: an exact rational, or one of the IEEE specials
that `float(str)` also produces from `inf`/`infinity`/`nan` spellings.
Binary rounding of decimal literals, and overflow of astronomically large
literals to infinity, are outside the model — no claim depends on either. -/
inductive PyFloat where
  | finite (q : Rat) : PyFloat
  | inf : PyFloat
  | negInf : PyFloat
  | nan : PyFloat
deriving DecidableEq, Repr

/-- After an initial digit of a PEP 515 digit group: consume further digits,
a single underscore allowed only strictly between two digits; returns the
digits consumed (underscores dropped) and the unconsumed rest. -/
def digitGroupAux : List Char → List Char × List Char
  | [] => ([], [])
  | c :: cs =>
    if c.isDigit then
      let (ds, rest) := digitGroupAux cs
      (c :: ds, rest)
    else if c == '_' then
      match cs with
      | d :: cs2 =>
        if d.isDigit then
          let (ds, rest) := digitGroupAux cs2
          (d :: ds, rest)
        else ([], c :: cs)
      | [] => ([], c :: cs)
    else ([], c :: cs)

/-- A PEP 515 digit group: `digit (["_"] digit)*`.  `none` when the input
does not start with a digit; a malformed underscore (leading, trailing or
doubled) ends the group and is rejected later by the caller's
must-consume-everything check, exactly as `float("1_")`, `float("_1")` and
`float("1__0")` all raise. -/
def digitGroup (cs : List Char) : Option (List Char × List Char) :=
  match cs with
  | c :: cs2 =>
    if c.isDigit then
      let (ds, rest) := digitGroupAux cs2
      some (c :: ds, rest)
    else none
  | [] => none

/-- The optional exponent after the mantissa digits, which must consume the
whole rest of the input. -/
def finishExp (intDs fracDs : List Char) (rest : List Char) : Option Rat :=
  let mant : Rat :=
    (natOfDigits intDs : Rat) + (natOfDigits fracDs : Rat) / ((10 : Rat) ^ fracDs.length)
  match rest with
  | [] => some mant
  | 'e' :: r3 | 'E' :: r3 =>
    let (sgn, r4) : Bool × List Char :=
      match r3 with
      | '+' :: r4 => (false, r4)
      | '-' :: r4 => (true, r4)
      | _ => (false, r3)
    match digitGroup r4 with
    | some (expDs, r5) =>
      if r5.isEmpty then
        let e := natOfDigits expDs
        some (if sgn then mant / ((10 : Rat) ^ e) else mant * ((10 : Rat) ^ e))
      else none
    | none => none
  | _ => none

/-- The numeric body of a Python float literal: `digits [. digits]`,
`digits .`, or `. digits` (each digit run a PEP 515 group), optional
exponent.  Must consume everything. -/
def pyFloatBody (cs : List Char) : Option Rat :=
  let (intDs, r1) : List Char × List Char :=
    match digitGroup cs with
    | some (ds, r) => (ds, r)
    | none => ([], cs)
  match r1 with
  | '.' :: r2 =>
    let (fracDs, r3) : List Char × List Char :=
      match digitGroup r2 with
      | some (ds, r) => (ds, r)
      | none => ([], r2)
    if intDs.isEmpty && fracDs.isEmpty then none
    else finishExp intDs fracDs r3
  | _ => if intDs.isEmpty then none else finishExp intDs [] r1

/-- The whitespace `float(str)` strips: the Unicode space class, which
unlike `str.strip` does not cover the `\x1c`-`\x1f` separators
(`float("\x1c5")` raises while `"\x1c5".strip()` is `"5"`). -/
def floatWS (c : Char) : Bool :=
  pyWS c && !(0x1c ≤ c.toNat && c.toNat ≤ 0x1f)

/-- Python `float(str)`: strip whitespace, optional sign, then either a
case-insensitive `inf`/`infinity`/`nan` word or a float literal with
PEP 515 underscore grouping. -/
def pyFloatString (s : String) : Option PyFloat :=
  let cs := (s.data.dropWhile floatWS).reverse.dropWhile floatWS |>.reverse
  let (neg, cs2) : Bool × List Char :=
    match cs with
    | '+' :: r => (false, r)
    | '-' :: r => (true, r)
    | _ => (false, cs)
  let lower := String.mk (cs2.map Char.toLower)
  if lower == "inf" || lower == "infinity" then
    some (if neg then .negInf else .inf)
  else if lower == "nan" then some .nan
  else (pyFloatBody cs2).map (fun q => .finite (if neg then -q else q))

/-- `float(v)` under `try/except`: `none` means the call raised (and the
caller skips the entry).  Numbers pass through, booleans become 0/1,
strings are parsed, everything else is a `TypeError`. -/
def pyFloat : JValue → Option PyFloat
  | .num q => some (.finite q)
  | .bool b => some (.finite (if b then 1 else 0))
  | .str s => pyFloatString s
  | _ => none

/-- Month-name table (full names and their three-letter abbreviations, as
recognised by `dateutil`). -/
def monthNum (s : String) : Option Nat :=
  let t := String.mk (s.data.map Char.toLower)
  let names := ["january", "february", "march", "april", "may", "june",
    "july", "august", "september", "october", "november", "december"]
  match names.enum.find? (fun p => p.2 == t || String.mk (p.2.data.take 3) == t) with
  | some p => some (p.1 + 1)
  | none => none

/-- Split a date string into tokens at spaces and commas. -/
def dateTokens (s : String) : List String :=
  let raw := s.data.foldr
    (fun c acc =>
      if c == ' ' || c == ',' then [] :: acc
      else match acc with
        | t :: ts => (c :: t) :: ts
        | [] => [[c]])
    [[]]
  (raw.map String.mk).filter (fun t => t != "")

def pad2 (n : Nat) : String := if n < 10 then "0" ++ toString n else toString n

/-- Days in each month; February is capped at 29 (leap-year validation of
the underlying calendar library is not reproduced — no claim exercises
February dates). -/
def daysInMonth (m : Nat) : Nat :=
  if m == 2 then 29
  else if m == 4 || m == 6 || m == 9 || m == 11 then 30
  else 31

/-- Modelled from the behaviour of the external `dateutil.parser.parse` on
the free-text dates the spec exercises: a `MonthName D[,] YYYY` phrase
parses to that calendar date; anything else is conservatively a parse
failure (`dateutil` raising).  Only the listed format is relied on by any
claim. -/
def dateutilParse (s : String) : Option String :=
  match dateTokens s with
  | [m, d, y] =>
    match monthNum m with
    | none => none
    | some mo =>
      let dds := d.data
      let yds := y.data
      if dds.all Char.isDigit && (dds.length == 1 || dds.length == 2)
          && yds.all Char.isDigit && yds.length == 4 then
        let dn := natOfDigits dds
        if 1 ≤ dn && dn ≤ daysInMonth mo then
          some (y ++ "-" ++ pad2 mo ++ "-" ++ pad2 dn)
        else none
      else none
  | _ => none

/-- `_parse_date`: `None` for falsy or non-string input, else the lenient
parse, with any parser exception mapped to `None` (the function is total —
it never raises). -/
def parse_date (v : JValue) : Option String :=
  match v with
  | .str s => if s == "" then none else dateutilParse s
  | _ => none

/-- `_unwrap`: a list is taken as-is; a dict is unwrapped at the first of
the container-key aliases holding a list, else treated as a one-record
list; anything else contributes nothing. -/
def unwrap (v : JValue) : List JValue :=
  match v with
  | .arr l => l
  | .obj fs =>
    let tryKey := fun (k : String) =>
      match objGet fs k with
      | .arr l => some l
      | _ => none
    match tryKey "Programs" with
    | some l => l
    | none =>
    match tryKey "results" with
    | some l => l
    | none =>
    match tryKey "data" with
    | some l => l
    | none =>
    match tryKey "items" with
    | some l => l
    | none => [v]
  | _ => []

/-- `load_raw_dir` with the filesystem abstracted: `none` is a missing
raw-data directory; `some docs` is the JSON documents of the matching
files in sorted filename order, already gzip-decompressed and parsed
(a malformed file would have raised inside `json.load`, before this
function's record-level semantics apply).  Each document is unwrapped and
all records are concatenated in order. -/
def load_raw_dir (dir : Option (List JValue)) : List JValue :=
  match dir with
  | none => []
  | some docs => (docs.map unwrap).flatten

/-- The pydantic `int | str` value of `program_id`. -/
inductive Pid where
  | int (n : Int) : Pid
  | str (s : String) : Pid
deriving DecidableEq, Repr

/-- Pydantic v2 smart-union validation of `program_id : int | str` in lax
mode: ints and strings pass through; an integral float coerces to int; a
fractional float, bool, `None` or container is a `ValidationError` (v2
refuses bool for int and never coerces numbers to str in lax mode). -/
def pidCoerce : JValue → Except Err Pid
  | .num q => if q.den == 1 then .ok (.int q.num) else .error "ValidationError: program_id"
  | .str s => .ok (.str s)
  | _ => .error "ValidationError: program_id"

/-- Pydantic v2 lax validation of an `Optional[str]` field: `None` and
strings pass, nothing else is coerced. -/
def coerceOptStr : JValue → Except Err (Option String)
  | .null => .ok none
  | .str s => .ok (some s)
  | _ => .error "ValidationError: str field"

/-- `ProgramRow` (pydantic model), one per surviving raw record. -/
structure ProgramRow where
  program_id : Pid
  program_code : Option String := none
  program_name : Option String := none
  state : Option String := none
  administrator : Option String := none
  implementing_sector_name : Option String := none
  category_name : Option String := none
  type_name : Option String := none
  website_url : Option String := none
  funding_source : Option String := none
  budget_text : Option String := none
  start_date : Option String := none
  end_date : Option String := none
  last_updated : Option String := none
  technologies : Option String := none
  technology_categories : Option String := none
  sectors : Option String := none
  utilities : Option String := none
  utilities_eia_ids : Option String := none
  incentive_text : Option String := none
  max_incentive_text : Option String := none
  equipment_requirements : Option String := none
  installation_requirements : Option String := none
  eligibility_text : Option String := none
  rec_ownership_text : Option String := none
deriving DecidableEq, Repr

/-- `ParameterRow` (pydantic model), one per numeric fact.  The `float`
field accepts every Python float, including the specials (pydantic's
default `allow_inf_nan`). -/
structure ParameterRow where
  program_id : Pid
  source : String
  tech : Option String := none
  sector : Option String := none
  qualifier : Option String := none
  amount : PyFloat
  units : String
  notes : Option String := none
deriving DecidableEq, Repr

/-- One text-mined hit (`_extract_amounts_any` dict). -/
structure Hit where
  amount : PyFloat
  units : String
  qualifier : Option String := none
  source : String
  notes : String
deriving DecidableEq, Repr

/-- Regex `\s` for `str` patterns: the same Unicode whitespace class as
`str.strip`. -/
def isSpaceC (c : Char) : Bool := pyWS c

/-- Regex `\w` (ASCII part), for the `\b` after a unit. -/
def isWordC (c : Char) : Bool := c.isAlphanum || c == '_'

/-- A `\b` right after a word char: next char must be a non-word char or
the end of the string. -/
def wordBoundary : List Char → Bool
  | [] => true
  | c :: _ => !isWordC c

/-- Case-insensitive literal match (pattern given in lowercase), returning
the rest of the input. -/
def stripCI : List Char → List Char → Option (List Char)
  | [], s => some s
  | _ :: _, [] => none
  | p :: ps, c :: cs => if c.toLower == p then stripCI ps cs else none

/-- Chars allowed in the `[\d,]+` capture group. -/
def isDigitComma (c : Char) : Bool := c.isDigit || c == ','

/-- `float(capture.replace(",", ""))` on a regex capture.  The `[\d,]+`
captures can be commas only (e.g. from `"$,/kW"`): after comma removal
Python then runs `float("")`, which raises a ValueError that nothing in
`build_tables` catches, so the error propagates. -/
def amtOfCapture (cap : List Char) : Except Err PyFloat :=
  match pyFloatString (String.mk (cap.filter (fun c => c != ','))) with
  | some f => .ok f
  | none => .error "ValueError: could not convert string to float"

/-- Tail `\s*/\s*<unit>\b` of the three currency-per-unit patterns. -/
def unitTail (unit : List Char) (r : List Char) : Option (List Char) :=
  match r.dropWhile isSpaceC with
  | '/' :: r2 =>
    match stripCI unit (r2.dropWhile isSpaceC) with
    | some r4 => if wordBoundary r4 then some r4 else none
    | none => none
  | _ => none

/-- Match `\$([\d,]+(?:\.\d+)?)\s*/\s*<unit>\b` at the current position,
returning the capture and the rest after the match.  Greedy matching with
the one backtracking point the pattern has (dropping the optional decimal
part); a shorter `[\d,]+` or `\d+` take can never rescue a failed match
because the abandoned char would still not satisfy the next pattern
element, so maximal munch plus this fallback is exact. -/
def matchDollarUnit (unit : List Char) : List Char → Option (List Char × List Char)
  | '$' :: cs1 =>
    let digs := cs1.takeWhile isDigitComma
    if digs.isEmpty then none
    else
      let r1 := cs1.drop digs.length
      let noFrac := (unitTail unit r1).map (fun after => (digs, after))
      match r1 with
      | '.' :: r2 =>
        let fds := r2.takeWhile Char.isDigit
        if fds.isEmpty then noFrac
        else
          match unitTail unit (r2.drop fds.length) with
          | some after => some (digs ++ '.' :: fds, after)
          | none => noFrac
      | _ => noFrac
  | _ => none

/-- The keyword alternation `(?:of|towards|rebate|incentive|credit)` tried
in regex order. -/
def pctKeyword (r : List Char) : Option (List Char) :=
  match stripCI "of".data r with
  | some r2 => some r2
  | none =>
  match stripCI "towards".data r with
  | some r2 => some r2
  | none =>
  match stripCI "rebate".data r with
  | some r2 => some r2
  | none =>
  match stripCI "incentive".data r with
  | some r2 => some r2
  | none => stripCI "credit".data r

/-- Match `(\d{1,3}(?:\.\d+)?)\s*%\s*(?:of|...)?` at the current position.
A run of more than three digits fails here outright (exactly as the regex
does after exhausting `{1,3}` backtracking, since the char after any
shorter take is still a digit). -/
def matchPct (cs : List Char) : Option (List Char × List Char) :=
  let ds := cs.takeWhile Char.isDigit
  if ds.isEmpty || decide (3 < ds.length) then none
  else
    let r1 := cs.drop ds.length
    let pctTail := fun (cap : List Char) (r : List Char) =>
      match r.dropWhile isSpaceC with
      | '%' :: r2 =>
        let r3 := r2.dropWhile isSpaceC
        match pctKeyword r3 with
        | some r4 => some (cap, r4)
        | none => some (cap, r3)
      | _ => none
    let noFrac := pctTail ds r1
    match r1 with
    | '.' :: r2 =>
      let fds := r2.takeWhile Char.isDigit
      if fds.isEmpty then noFrac
      else
        match pctTail (ds ++ '.' :: fds) (r2.drop fds.length) with
        | some res => some res
        | none => noFrac
    | _ => noFrac

/-- Number tail `\s*\$([\d,]+(?:\.\d+)?)` of the capped-amount pattern
(the capture ends the pattern, so greedy needs no fallback). -/
def capTail (r : List Char) : Option (List Char × List Char) :=
  match r.dropWhile isSpaceC with
  | '$' :: r2 =>
    let digs := r2.takeWhile isDigitComma
    if digs.isEmpty then none
    else
      let r3 := r2.drop digs.length
      match r3 with
      | '.' :: r4 =>
        let fds := r4.takeWhile Char.isDigit
        if fds.isEmpty then some (digs, r3)
        else some (digs ++ '.' :: fds, r4.drop fds.length)
      | _ => some (digs, r3)
  | _ => none

/-- Match `(?:up to|maximum(?: incentive)?|cap)\s*\$([\d,]+(?:\.\d+)?)` at
the current position, with the regex alternation order and the greedy
optional ` incentive` (backtracked when the dollar tail then fails). -/
def matchCap (cs : List Char) : Option (List Char × List Char) :=
  match stripCI "up to".data cs with
  | some r => capTail r
  | none =>
  match stripCI "maximum".data cs with
  | some r =>
    match stripCI " incentive".data r with
    | some r2 =>
      match capTail r2 with
      | some res => some res
      | none => capTail r
    | none => capTail r
  | none =>
  match stripCI "cap".data cs with
  | some r => capTail r
  | none => none

/-- `finditer`: try the matcher at every position left to right; on a match
emit the capture and continue right after the match (all matches of these
patterns consume at least one char).  Fuel is the remaining length, which
suffices since every step consumes at least one char. -/
def findAllAux (m : List Char → Option (List Char × List Char)) :
    Nat → List Char → List (List Char)
  | 0, _ => []
  | _ + 1, [] => []
  | fuel + 1, c :: rest =>
    match m (c :: rest) with
    | some (cap, after) => cap :: findAllAux m fuel after
    | none => findAllAux m fuel rest

def findAll (m : List Char → Option (List Char × List Char)) (cs : List Char) :
    List (List Char) :=
  findAllAux m cs.length cs

/-- `_extract_amounts_any`: scan the narrative text with the five pattern
families and collect all hits, in the source order of the families; the
first commas-only capture raises the uncaught `float("")` ValueError
(captures are converted left to right within each family, families in
source order, so the error order is the source's). -/
def extract_amounts_any (text : Option String) : Except Err (List Hit) :=
  match text with
  | none => .ok []
  | some t =>
    if t == "" then .ok []
    else
      let cs := t.data
      let famHits := fun (m : List Char → Option (List Char × List Char))
          (units : String) (q : Option String) =>
        (findAll m cs).mapM
          (fun cap => (amtOfCapture cap).map
            (fun a => Hit.mk a units q "DerivedFromDetails" t))
      do
        let h1 ← famHits (matchDollarUnit "kw".data) "$/kW" none
        let h2 ← famHits (matchDollarUnit "kwh".data) "$/kWh" none
        let h3 ← famHits (matchDollarUnit "w".data) "$/W" none
        let h4 ← famHits matchPct "%" none
        let h5 ← famHits matchCap "USD" (some "cap")
        return h1 ++ h2 ++ h3 ++ h4 ++ h5

/-- Strict codepoint-lexicographic order on char lists (the order Python
string comparison, and hence the pandas sort, uses). -/
def lexLt : List Char → List Char → Bool
  | [], [] => false
  | [], _ :: _ => true
  | _ :: _, [] => false
  | a :: as_, b :: bs =>
    a.toNat < b.toNat || (a.toNat == b.toNat && lexLt as_ bs)

/-- Strict order on an optional sort key, missing values greatest
(`na_position="last"`). -/
def optStrLt : Option String → Option String → Bool
  | some a, some b => lexLt a.data b.data
  | some _, none => true
  | none, _ => false

/-- The `(state, program_name)` sort key of a program row. -/
def rowKey (r : ProgramRow) : Option String × Option String :=
  (r.state, r.program_name)

/-- Strict lexicographic order on sort keys, each column with nulls last —
the order of `pandas.sort_values(["state", "program_name"],
na_position="last")`. -/
def keyLt (a b : Option String × Option String) : Bool :=
  optStrLt a.1 b.1 || (a.1 == b.1 && optStrLt a.2 b.2)

/-- Row comparison used for sorting: `a` may precede `b` unless `b`'s key
is strictly smaller. -/
def rowLe (a b : ProgramRow) : Bool := !keyLt (rowKey b) (rowKey a)

def rowLeP (a b : ProgramRow) : Prop := rowLe a b = true

instance : DecidableRel rowLeP := fun _ _ => inferInstanceAs (Decidable (_ = true))

/-- The final sort of the programs table.  For multiple sort columns pandas
uses `lexsort`, which is a stable sort by the lexicographic key order
`keyLt`; `List.insertionSort` with the total preorder `rowLeP` (which
places an element before the first element not strictly below it) is such a
stable sort. -/
def sortProgs (l : List ProgramRow) : List ProgramRow := List.insertionSort rowLeP l

/-- Python `x or default` for the narrative-text fields (`det_map` values
and hit fields are strings; an empty string falls through like `None`). -/
def sOr (o : Option String) (d : String) : String :=
  match o with
  | some s => if s == "" then d else s
  | none => d

/-- Python `a or b` on optional nonempty strings (detail-map lookups). -/
def oOr (a b : Option String) : Option String :=
  match a with
  | some s => if s == "" then b else some s
  | none => b

/-- Insert into the detail label map, later entries overwriting earlier
ones for the same label (`det_map[label] = txt`). -/
def setKV (m : List (String × String)) (k v : String) : List (String × String) :=
  if m.any (fun p => p.1 == k) then
    m.map (fun p => if p.1 == k then (k, v) else p)
  else m ++ [(k, v)]

/-- `det_map.get(label)`. -/
def dget (m : List (String × String)) (k : String) : Option String :=
  match m.find? (fun p => p.1 == k) with
  | some p => some p.2
  | none => none

/-- `pid = r.get("ProgramId") or r.get("ProgramID") or r.get("Id")`. -/
def resolvePid (fs : List (String × JValue)) : JValue :=
  pyOr (pyOr (objGet fs "ProgramId") (objGet fs "ProgramID")) (objGet fs "Id")

/-- `(x or "").strip()`: raises `AttributeError` on a truthy non-string. -/
def pyStripAttr (v : JValue) : Except Err String :=
  match v with
  | .str s => .ok (pyStrip s)
  | _ => .error "AttributeError: strip on non-str"

/-- The flattened multi-valued fields of one record (lines 149-159 of the
source: the `or []` guards, the name/category projections and the joins,
in source order so the first failing operation decides the error). -/
def stageFlatten (r : JValue) :
    Except Err (Option String × Option String × Option String × Option String × Option String) := do
  let techs ← pyIter (pyOr (← recordGet r "Technologies") (.arr []))
  let tech_names ← join_unique (← techs.mapM (fun t => recordGet t "name"))
  let tech_cats ← join_unique (← techs.mapM (fun t => recordGet t "category"))
  let sectors ← pyIter (pyOr (← recordGet r "Sectors") (.arr []))
  let sector_names ← join_unique (← sectors.mapM (fun s => recordGet s "name"))
  let utils_ ← pyIter (pyOr (← recordGet r "Utilities") (.arr []))
  let util_names ← join_unique (← utils_.mapM (fun u => recordGet u "name"))
  let eiaVals ← utils_.mapM (fun u => recordGet u "EIA_id")
  let util_eia ← join_unique ((eiaVals.filter truthy).map (fun v => .str (pyStr v)))
  return (tech_names, tech_cats, sector_names, util_names, util_eia)

/-- The `Details` label→text map (lines 161-168): trim the label, skip
empty labels, HTML-strip the value, skip empty text, last label wins. -/
def stageDetails (r : JValue) : Except Err (List (String × String)) := do
  let dets ← pyIter (pyOr (← recordGet r "Details") (.arr []))
  dets.foldlM
    (fun m d => do
      let lab ← pyStripAttr (pyOr (← recordGet d "label") (.str ""))
      if lab == "" then return m
      else
        match strip_html (← recordGet d "value") with
        | some txt => return setKV m lab txt
        | none => return m)
    []

/-- The scalar columns of one `ProgramRow`: each raw passthrough field
validated by pydantic as `Optional[str]` (with the source `or` fallbacks
for administrator and website), and the three date fields through the
lenient parser (`or` over the candidate raw fields, first truthy wins). -/
structure ScalarCols where
  program_code : Option String
  program_name : Option String
  state : Option String
  administrator : Option String
  implementing_sector_name : Option String
  category_name : Option String
  type_name : Option String
  website_url : Option String
  funding_source : Option String
  budget_text : Option String
  start_date : Option String
  end_date : Option String
  last_updated : Option String
deriving DecidableEq, Repr

/-- Gather the scalar columns of lines 180-192 in source field order. -/
def scalarCols (r : JValue) : Except Err ScalarCols := do
  let program_code ← coerceOptStr (← recordGet r "Code")
  let program_name ← coerceOptStr (← recordGet r "Name")
  let state ← coerceOptStr (← recordGet r "State")
  let administrator ← coerceOptStr (pyOr (← recordGet r "Administrator") (← recordGet r "ImplementingSectorName"))
  let isn ← coerceOptStr (← recordGet r "ImplementingSectorName")
  let category_name ← coerceOptStr (← recordGet r "CategoryName")
  let type_name ← coerceOptStr (← recordGet r "TypeName")
  let website_url ← coerceOptStr (pyOr (pyOr (← recordGet r "WebsiteUrl") (← recordGet r "ProgramURL")) (← recordGet r "Website"))
  let funding_source ← coerceOptStr (← recordGet r "FundingSource")
  let budget_text ← coerceOptStr (← recordGet r "Budget")
  let start_date := parse_date (pyOr (← recordGet r "StartDate") (← recordGet r "EffectiveDate"))
  let end_date := parse_date (pyOr (← recordGet r "EndDate") (← recordGet r "ExpirationDate"))
  let last_updated := parse_date (pyOr (← recordGet r "LastUpdate") (← recordGet r "LastUpdated"))
  return ⟨program_code, program_name, state, administrator, isn, category_name, type_name,
    website_url, funding_source, budget_text, start_date, end_date, last_updated⟩

/-- The `ProgramRow(...)` construction (lines 177-205): pydantic validation
of each raw passthrough field, the documented label fallback chains, the
date candidates (`or`, first truthy wins) through the lenient parser. -/
def mkProgramRow (pidC : Pid) (r : JValue)
    (flat : Option String × Option String × Option String × Option String × Option String)
    (detm : List (String × String)) : Except Err ProgramRow := do
  let (tech_names, tech_cats, sector_names, util_names, util_eia) := flat
  let sc ← scalarCols r
  return {
    program_id := pidC
    program_code := sc.program_code
    program_name := sc.program_name
    state := sc.state
    administrator := sc.administrator
    implementing_sector_name := sc.implementing_sector_name
    category_name := sc.category_name
    type_name := sc.type_name
    website_url := sc.website_url
    funding_source := sc.funding_source
    budget_text := sc.budget_text
    start_date := sc.start_date
    end_date := sc.end_date
    last_updated := sc.last_updated
    technologies := tech_names
    technology_categories := tech_cats
    sectors := sector_names
    utilities := util_names
    utilities_eia_ids := util_eia
    incentive_text := oOr (oOr (dget detm "Incentive Amount") (dget detm "Incentive")) (dget detm "Benefit Details")
    max_incentive_text := dget detm "Maximum Incentive"
    equipment_requirements := dget detm "Equipment Requirements"
    installation_requirements := dget detm "Installation Requirements"
    eligibility_text := oOr (dget detm "Eligibility") (dget detm "Eligibility Requirements")
    rec_ownership_text := dget detm "Ownership of Renewable Energy Credits" }

/-- One structured parameter entry (lines 211-231): missing amount or
units, or a non-coercible amount, skips the entry (`none`); otherwise the
scope joins run, the qualifier is validated and a row is built. -/
def entryRow (pidC : Pid) (techScope sectorScope : List JValue) (p : JValue) :
    Except Err (Option ParameterRow) := do
  let amount ← recordGet p "amount"
  let units ← recordGet p "units"
  if isNull amount || isNull units then return none
  else
    match pyFloat amount with
    | none => return none
    | some amt => do
      let tech ← join_unique techScope
      let sector ← join_unique sectorScope
      let qualifier ← coerceOptStr (← recordGet p "qualifier")
      return some {
        program_id := pidC
        source := "ProgramParameters"
        tech := tech
        sector := sector
        qualifier := qualifier
        amount := amt
        units := pyStr units
        notes := none }

/-- The inner `for p in pp.get("parameters") or []` loop. -/
def entriesRows (pidC : Pid) (techScope sectorScope : List JValue) :
    List JValue → Except Err (List ParameterRow)
  | [] => .ok []
  | p :: ps => do
    let row? ← entryRow pidC techScope sectorScope p
    let rest ← entriesRows pidC techScope sectorScope ps
    return (match row? with
      | some row => row :: rest
      | none => rest)

/-- The `for pp in params` loop over structured parameter groups
(lines 208-231): per group the scope name lists are computed eagerly, the
entries then processed. -/
def groupsRows (pidC : Pid) : List JValue → Except Err (List ParameterRow)
  | [] => .ok []
  | pp :: rest => do
    let ts ← pyIter (pyOr (← recordGet pp "technologies") (.arr []))
    let techScope ← ts.mapM (fun t => recordGet t "name")
    let ss ← pyIter (pyOr (← recordGet pp "sectors") (.arr []))
    let sectorScope ← ss.mapM (fun s => recordGet s "name")
    let ps ← pyIter (pyOr (← recordGet pp "parameters") (.arr []))
    let rows ← entriesRows pidC techScope sectorScope ps
    let more ← groupsRows pidC rest
    return rows ++ more

/-- A narrative hit mined from the incentive-amount text as a row
(lines 234-246): qualifier taken verbatim from the hit. -/
def mkDerived (pidC : Pid) (h : Hit) : ParameterRow :=
  { program_id := pidC
    source := h.source
    tech := none
    sector := none
    qualifier := h.qualifier
    amount := h.amount
    units := h.units
    notes := some (sOr (some h.notes) "") }

/-- A narrative hit mined from the maximum-incentive text as a row
(lines 247-259): `str(hit.get("qualifier") or "cap")` defaults the
qualifier to `"cap"`, `str(hit.get("units") or "USD")` the units. -/
def mkDerivedMax (pidC : Pid) (h : Hit) : ParameterRow :=
  { program_id := pidC
    source := h.source
    tech := none
    sector := none
    qualifier := some (sOr h.qualifier "cap")
    amount := h.amount
    units := sOr (some h.units) "USD"
    notes := some (sOr (some h.notes) "") }

/-- The body of the `for r in records` loop of `build_tables`
(lines 144-259) for one record: the rows it appends to the two tables, or
the exception it raises.  A record without a resolvable identifier
contributes nothing. -/
def processRecord : JValue → Except Err (List ProgramRow × List ParameterRow)
  | .obj fs => do
    let pid := resolvePid fs
    if isNull pid then return ([], [])
    else do
      let r := JValue.obj fs
      let flat ← stageFlatten r
      let detm ← stageDetails r
      let pidC ← pidCoerce pid
      let pr ← mkProgramRow pidC r flat detm
      let inc := oOr (oOr (dget detm "Incentive Amount") (dget detm "Incentive")) (dget detm "Benefit Details")
      let mx := dget detm "Maximum Incentive"
      let pps ← pyIter (pyOr (← recordGet r "ProgramParameters") (.arr []))
      let structRows ← groupsRows pidC pps
      let hits1 ← extract_amounts_any inc
      let hits2 ← extract_amounts_any mx
      return ([pr],
        structRows ++ hits1.map (mkDerived pidC) ++ hits2.map (mkDerivedMax pidC))
  | _ => .error "AttributeError: get on non-dict"

/-- The whole record loop: left to right, stopping at the first raised
exception, concatenating the appended rows. -/
def buildRows : List JValue → Except Err (List ProgramRow × List ParameterRow)
  | [] => .ok ([], [])
  | r :: rs => do
    let (ps, qs) ← processRecord r
    let (ps2, qs2) ← buildRows rs
    return (ps ++ ps2, qs ++ qs2)

/-- `build_tables` from the already-loaded record sequence (lines 138-265):
run the loop, then assemble the two frames.  `pd.DataFrame([])` on an empty
row list has no columns, so `sort_values(["state", "program_name"])` then
raises `KeyError: state`; with at least one row the programs frame is
sorted stably by `(state, program_name)` ascending with nulls last.  The
parameters frame keeps encounter order. -/
def buildTablesRecords (recs : List JValue) :
    Except Err (List ProgramRow × List ParameterRow) := do
  let (ps, qs) ← buildRows recs
  if ps.isEmpty then .error "KeyError: state"
  else return (sortProgs ps, qs)

/-- `build_tables(version_tag, project_root)` with the filesystem
abstracted as in `load_raw_dir`. -/
def build_tables (dir : Option (List JValue)) :
    Except Err (List ProgramRow × List ParameterRow) :=
  buildTablesRecords (load_raw_dir dir)

/-- Order-preserving first-occurrence deduplication, following the words of
the spec ("deduplicated, order-preserving"); used as the specification-side
counterpart of the accumulator inside `join_unique`. -/
def specDedup : List String → List String
  | [] => []
  | x :: xs => x :: specDedup (xs.filter (fun y => y != x))
termination_by l => l.length
decreasing_by
  simp only [List.length_cons]
  exact Nat.lt_succ_of_le (List.length_filter_le _ _)

/-- The spec-side join: drop empty names, deduplicate keeping first
occurrences, join with "; ", nothing joined gives an absent value. -/
def specJoinNames (names : List String) : Option String :=
  match specDedup (names.filter (fun s => s != "")) with
  | [] => none
  | ds => some (String.intercalate "; " ds)

/-- The first non-null candidate, following the words of the claim
("first non-null candidate raw field wins"); the specification-side
counterpart of the `or` chains over date candidates. -/
def specFirstNonNull : List JValue → JValue
  | [] => .null
  | v :: vs => if isNull v then specFirstNonNull vs else v

/-- The start date as the claim describes it: parse the first non-null of
the `StartDate`, `EffectiveDate` candidates. -/
def specStartDate (fs : List (String × JValue)) : Option String :=
  parse_date (specFirstNonNull [objGet fs "StartDate", objGet fs "EffectiveDate"])

/-- The `int | str` identifier as a JSON value (for stating that emitted
identifiers are never null). -/
def pidToJ : Pid → JValue
  | .int n => .num n
  | .str s => .str s

/-- First-occurrence dedup relative to an accumulator of already-seen
values; bridges the fold inside `join_unique` and `specDedup`. -/
def specDedupExcl (acc : List String) : List String → List String
  | [] => []
  | x :: xs =>
    if x != "" && !(acc.any (fun y => x == y)) then
      x :: specDedupExcl (acc ++ [x]) xs
    else specDedupExcl acc xs

theorem exBind_ok {α β : Type} (a : α) (f : α → Except Err β) :
    (Except.ok a >>= f : Except Err β) = f a := rfl

theorem exBind_error {α β : Type} (e : Err) (f : α → Except Err β) :
    (Except.error e >>= f : Except Err β) = .error e := rfl

theorem isNull_iff {v : JValue} : isNull v = true ↔ v = .null := by
  cases v <;> simp [isNull]

theorem pyOr_truthy {a b : JValue} (h : truthy a = true) : pyOr a b = a := by
  simp [pyOr, h]

theorem pyOr_falsy {a b : JValue} (h : truthy a = false) : pyOr a b = b := by
  simp [pyOr, h]

theorem exPure {α : Type} (a : α) : (pure a : Except Err α) = .ok a := rfl

theorem processRecord_skip {fs : List (String × JValue)}
    (h : resolvePid fs = .null) : processRecord (.obj fs) = .ok ([], []) := by
  simp [processRecord, h, isNull]
  rfl

theorem buildRows_cons (r : JValue) (rs : List JValue) :
    buildRows (r :: rs) = do
      let (ps, qs) ← processRecord r
      let (ps2, qs2) ← buildRows rs
      return (ps ++ ps2, qs ++ qs2) := rfl

theorem buildRows_cons_skip {r : JValue} {rs : List JValue}
    (h : processRecord r = .ok ([], [])) : buildRows (r :: rs) = buildRows rs := by
  rw [buildRows_cons, h, exBind_ok]
  cases hb : buildRows rs with
  | ok t =>
    cases t with
    | mk a b => rfl
  | error e => rfl

theorem buildRows_append_skip {r : JValue} (l1 l2 : List JValue)
    (h : processRecord r = .ok ([], [])) :
    buildRows (l1 ++ r :: l2) = buildRows (l1 ++ l2) := by
  induction l1 with
  | nil => simpa using buildRows_cons_skip h
  | cons x xs ih =>
    simp only [List.cons_append]
    rw [buildRows_cons, buildRows_cons, ih]

/-- C3: the first half of the claim holds — a missing raw-data directory
makes `load_raw_dir` return the empty record sequence without error — but
`build_tables` then does NOT return empty tables: with zero program rows
`pd.DataFrame([])` has no columns and `sort_values(["state",
"program_name"])` raises `KeyError: state`.  This theorem evaluates the
code at the failing input. -/
theorem c3_missing_dir_keyerror :
    load_raw_dir none = [] ∧ build_tables none = .error "KeyError: state" :=
  ⟨rfl, rfl⟩

/-- C10: identifier resolution takes the first truthy value of
`ProgramId`, `ProgramID`, `Id` in that order and otherwise the raw `Id`
value even when falsy; a record whose only identifier is a falsy
`ProgramId` (0) is skipped entirely, while a record whose `Id` is 0 is
kept and emitted with `program_id` 0. -/
theorem c10_identifier_resolution :
    (∀ fs : List (String × JValue), truthy (objGet fs "ProgramId") = true →
      resolvePid fs = objGet fs "ProgramId")
    ∧ (∀ fs : List (String × JValue), truthy (objGet fs "ProgramId") = false →
      truthy (objGet fs "ProgramID") = true → resolvePid fs = objGet fs "ProgramID")
    ∧ (∀ fs : List (String × JValue), truthy (objGet fs "ProgramId") = false →
      truthy (objGet fs "ProgramID") = false → resolvePid fs = objGet fs "Id")
    ∧ processRecord (.obj [("ProgramId", .num 0)]) = .ok ([], [])
    ∧ (buildTablesRecords [.obj [("Id", .num 0)]]).map (fun t => t.1.map (fun r => r.program_id))
        = .ok [.int 0] := by
  refine ⟨fun fs h => ?_, fun fs h1 h2 => ?_, fun fs h1 h2 => ?_, rfl, rfl⟩
  · simp [resolvePid, pyOr, h]
  · simp [resolvePid, pyOr, h1, h2]
  · simp [resolvePid, pyOr, h1, h2]

/-- C10 witness: the three resolution orders at concrete records. -/
theorem c10_witness :
    resolvePid [("ProgramId", .num 5), ("Id", .num 7)] = objGet [("ProgramId", .num 5), ("Id", .num 7)] "ProgramId"
    ∧ resolvePid [("ProgramId", .num 0), ("ProgramID", .str "x")] = objGet [("ProgramId", .num 0), ("ProgramID", .str "x")] "ProgramID"
    ∧ resolvePid [("ProgramId", .num 0), ("Id", .num 0)] = objGet [("ProgramId", .num 0), ("Id", .num 0)] "Id" :=
  ⟨c10_identifier_resolution.1 _ (by decide),
   c10_identifier_resolution.2.1 _ (by decide) (by decide),
   c10_identifier_resolution.2.2.1 _ (by decide) (by decide)⟩

/-- C6: a raw record with no value under any identifier alias is skipped
silently — it yields no rows itself, and the whole build over any record
sequence is unchanged by its presence. -/
theorem c6_no_identifier_skipped :
    ∀ (fs : List (String × JValue)) (l1 l2 : List JValue),
      isNull (objGet fs "ProgramId") = true → isNull (objGet fs "ProgramID") = true →
      isNull (objGet fs "Id") = true →
      processRecord (.obj fs) = .ok ([], [])
      ∧ buildTablesRecords (l1 ++ .obj fs :: l2) = buildTablesRecords (l1 ++ l2) := by
  intro fs l1 l2 h1 h2 h3
  rw [isNull_iff] at h1 h2 h3
  have hres : resolvePid fs = .null := by
    simp [resolvePid, h1, h2, h3, pyOr, truthy]
  have hskip := processRecord_skip hres
  refine ⟨hskip, ?_⟩
  unfold buildTablesRecords
  rw [buildRows_append_skip l1 l2 hskip]

/-- C6 witness: the empty record among two others. -/
theorem c6_witness :
    processRecord (.obj []) = .ok ([], [])
    ∧ buildTablesRecords ([.obj [("Id", .num 1)]] ++ .obj [] :: [])
        = buildTablesRecords ([.obj [("Id", .num 1)]] ++ []) :=
  c6_no_identifier_skipped [] [.obj [("Id", .num 1)]] [] rfl rfl rfl

/-- C8 counterexample: with `StartDate` the empty string (non-null) and
`EffectiveDate` `"March 3, 2021"`, the built row's start date is
`"2021-03-03"` — the empty string falls through the Python `or` — whereas
the claim's first-NON-NULL-candidate rule (`specStartDate`) yields an
absent value.  So "the first non-null candidate raw field wins" is false
as stated. -/
theorem c8_counterexample :
    (buildTablesRecords [.obj [("Id", .num 7), ("StartDate", .str ""), ("EffectiveDate", .str "March 3, 2021")]]).map
        (fun t => t.1.map (fun r => r.start_date)) = .ok [some "2021-03-03"]
    ∧ specStartDate [("Id", .num 7), ("StartDate", .str ""), ("EffectiveDate", .str "March 3, 2021")] = none :=
  ⟨rfl, rfl⟩

/-- C8 (amended): `"March 3, 2021"` parses to `"2021-03-03"`; unparseable
(`"not a date"`) or non-string (hence absent) input yields an absent value
— `parse_date` is total, it never raises — and for each date field the
first TRUTHY candidate wins: a truthy candidate is used, a falsy one
(null, absent, or the empty string) falls through to the next. -/
theorem c8_date_parsing :
    parse_date (.str "March 3, 2021") = some "2021-03-03"
    ∧ parse_date (.str "not a date") = none
    ∧ (∀ v : JValue, isStrB v = false → parse_date v = none)
    ∧ (∀ a b : JValue, (truthy a = true → pyOr a b = a) ∧ (truthy a = false → pyOr a b = b)) := by
  refine ⟨rfl, rfl, fun v h => ?_, fun a b => ⟨fun h => pyOr_truthy h, fun h => pyOr_falsy h⟩⟩
  cases v <;> simp_all [isStrB, parse_date]

/-- C8 witness: the general clauses at concrete inputs (null start date is
absent; an empty-string candidate falls through to the next candidate). -/
theorem c8_witness :
    parse_date .null = none
    ∧ pyOr (.str "") (.str "March 3, 2021") = .str "March 3, 2021" :=
  ⟨c8_date_parsing.2.2.1 .null rfl, (c8_date_parsing.2.2.2 (.str "") (.str "March 3, 2021")).2 rfl⟩

theorem entriesRows_cons (pidC : Pid) (ts ss : List JValue) (p : JValue) (ps : List JValue) :
    entriesRows pidC ts ss (p :: ps) = do
      let row? ← entryRow pidC ts ss p
      let rest ← entriesRows pidC ts ss ps
      return (match row? with
        | some row => row :: rest
        | none => rest) := rfl

/-- C4: mining `"Rebate of $0.50/W up to $2,500 maximum incentive"`
completes without raising and yields a hit with amount 0.50 and units
`$/W` and a hit with amount 2500 (comma stripped), units `USD`, qualifier
`cap`; and every hit mined from the maximum-incentive field whose pattern
supplied no qualifier is emitted as a row with qualifier `"cap"`. -/
theorem c4_text_mining :
    (∃ hits, extract_amounts_any (some "Rebate of $0.50/W up to $2,500 maximum incentive")
        = .ok hits
      ∧ (∃ h ∈ hits, h.amount = .finite (1 / 2) ∧ h.units = "$/W")
      ∧ (∃ h ∈ hits, h.amount = .finite 2500 ∧ h.units = "USD" ∧ h.qualifier = some "cap"))
    ∧ (∀ (pidC : Pid) (text : Option String) (hits : List Hit),
      extract_amounts_any text = .ok hits → ∀ h ∈ hits,
      h.qualifier = none → (mkDerivedMax pidC h).qualifier = some "cap") := by
  have hr1 : ((natOfDigits ['0'] : Rat)
      + (natOfDigits ['5', '0'] : Rat) / (10 : Rat) ^ (2 : Nat)) = 1 / 2 := by
    rw [show natOfDigits ['0'] = 0 from rfl, show natOfDigits ['5', '0'] = 50 from rfl]
    norm_num
  have hr2 : ((natOfDigits ['2', '5', '0', '0'] : Rat)
      + (natOfDigits ([] : List Char) : Rat) / (10 : Rat) ^ (0 : Nat)) = 2500 := by
    rw [show natOfDigits ['2', '5', '0', '0'] = 2500 from rfl,
      show natOfDigits ([] : List Char) = 0 from rfl]
    norm_num
  have hl : extract_amounts_any (some "Rebate of $0.50/W up to $2,500 maximum incentive")
      = .ok [⟨.finite ((natOfDigits ['0'] : Rat)
              + (natOfDigits ['5', '0'] : Rat) / (10 : Rat) ^ (2 : Nat)),
            "$/W", none, "DerivedFromDetails",
            "Rebate of $0.50/W up to $2,500 maximum incentive"⟩,
          ⟨.finite ((natOfDigits ['2', '5', '0', '0'] : Rat)
              + (natOfDigits ([] : List Char) : Rat) / (10 : Rat) ^ (0 : Nat)),
            "USD", some "cap", "DerivedFromDetails",
            "Rebate of $0.50/W up to $2,500 maximum incentive"⟩] := rfl
  rw [hr1, hr2] at hl
  refine ⟨⟨_, hl, ⟨_, List.mem_cons_self _ _, rfl, rfl⟩,
    ⟨_, List.mem_cons_of_mem _ (List.mem_cons_self _ _), rfl, rfl, rfl⟩⟩,
    fun pidC text hits _ h _ hq => ?_⟩
  simp [mkDerivedMax, hq, sOr]

/-- C4 witness: the qualifier-defaulting clause applied to the `$/W` hit
of the example string. -/
theorem c4_witness :
    (mkDerivedMax (.int 1)
      ⟨.finite (1 / 2), "$/W", none, "DerivedFromDetails",
        "Rebate of $0.50/W up to $2,500 maximum incentive"⟩).qualifier = some "cap" := by
  have hr1 : ((natOfDigits ['0'] : Rat)
      + (natOfDigits ['5', '0'] : Rat) / (10 : Rat) ^ (2 : Nat)) = 1 / 2 := by
    rw [show natOfDigits ['0'] = 0 from rfl, show natOfDigits ['5', '0'] = 50 from rfl]
    norm_num
  have hl : extract_amounts_any (some "Rebate of $0.50/W up to $2,500 maximum incentive")
      = .ok [⟨.finite ((natOfDigits ['0'] : Rat)
              + (natOfDigits ['5', '0'] : Rat) / (10 : Rat) ^ (2 : Nat)),
            "$/W", none, "DerivedFromDetails",
            "Rebate of $0.50/W up to $2,500 maximum incentive"⟩,
          ⟨.finite ((natOfDigits ['2', '5', '0', '0'] : Rat)
              + (natOfDigits ([] : List Char) : Rat) / (10 : Rat) ^ (0 : Nat)),
            "USD", some "cap", "DerivedFromDetails",
            "Rebate of $0.50/W up to $2,500 maximum incentive"⟩] := rfl
  rw [hr1] at hl
  exact c4_text_mining.2 (.int 1)
    (some "Rebate of $0.50/W up to $2,500 maximum incentive") _ hl
    ⟨.finite (1 / 2), "$/W", none, "DerivedFromDetails",
      "Rebate of $0.50/W up to $2,500 maximum incentive"⟩
    (List.mem_cons_self _ _) rfl

theorem truthy_str (s : String) : truthy (.str s) = (s != "") := rfl

theorem pyEq_str (a b : String) : pyEq (.str a) (.str b) = (a == b) := rfl

theorem pyStr_str (s : String) : pyStr (.str s) = s := rfl

theorem any_pyEq_str (x : String) (acc : List String) :
    ((acc.map JValue.str).any fun y => pyEq (JValue.str x) y) = acc.any (fun y => x == y) := by
  induction acc with
  | nil => rfl
  | cons a l ih => simp [pyEq_str, ih]

theorem specDedup_nil : specDedup [] = [] := by
  rw [specDedup.eq_def]

theorem specDedup_cons (x : String) (l : List String) :
    specDedup (x :: l) = x :: specDedup (l.filter (fun y => y != x)) := by
  rw [specDedup.eq_def]

theorem join_seen (names : List String) (acc : List String) :
    (names.map JValue.str).foldl
        (fun acc x => if truthy x && !(acc.any (fun y => pyEq x y)) then acc ++ [x] else acc)
        (acc.map JValue.str)
      = (acc ++ specDedupExcl acc names).map JValue.str := by
  induction names generalizing acc with
  | nil => simp [specDedupExcl]
  | cons x xs ih =>
    simp only [List.map_cons, List.foldl_cons, truthy_str, any_pyEq_str, specDedupExcl]
    cases h : (x != "" && !(acc.any fun y => x == y)) with
    | true =>
      rw [if_pos rfl]
      have hmap : (acc.map JValue.str) ++ [JValue.str x] = ((acc ++ [x]).map JValue.str) := by
        simp
      rw [hmap, ih (acc ++ [x])]
      simp
    | false =>
      rw [if_neg (by simp)]
      rw [ih acc]
      simp

theorem specDedupExcl_eq (l : List String) (acc : List String) :
    specDedupExcl acc l
      = specDedup (l.filter (fun s => s != "" && !(acc.any (fun y => s == y)))) := by
  induction l generalizing acc with
  | nil => simp [specDedupExcl, specDedup_nil]
  | cons x xs ih =>
    rw [specDedupExcl]
    cases h : (x != "" && !(acc.any fun y => x == y)) with
    | true =>
      rw [if_pos rfl, List.filter_cons, h]
      rw [if_pos rfl]
      rw [specDedup_cons, ih (acc ++ [x])]
      congr 1
      rw [List.filter_filter]
      congr 1
      refine List.filter_congr fun s _ => ?_
      simp only [List.any_append, List.any_cons, List.any_nil, Bool.or_false, Bool.not_or,
        bne, Bool.and_assoc]
      cases hx : s == x <;> cases h1 : s == "" <;> cases h2 : acc.any (fun y => s == y) <;> simp
    | false =>
      rw [if_neg (by simp), List.filter_cons, h, if_neg (by simp)]
      exact ih acc

/-- C9: flattening a multi-valued nested list joins the projected names
into a deduplicated, order-preserving, semicolon-separated string:
`join_unique` over string values never raises and equals the spec-side
filter/dedup/join (`specJoinNames`); in particular the Solar PV / Solar PV
/ Wind technologies of a record yield `"Solar PV; Wind"`. -/
theorem c9_join_unique :
    (∀ names : List String, join_unique (names.map JValue.str) = .ok (specJoinNames names))
    ∧ (buildTablesRecords [.obj [("Id", .num 9),
        ("Technologies", .arr [.obj [("name", .str "Solar PV")], .obj [("name", .str "Solar PV")],
          .obj [("name", .str "Wind")]])]]).map (fun t => t.1.map (fun r => r.technologies))
      = .ok [some "Solar PV; Wind"] := by
  refine ⟨fun names => ?_, rfl⟩
  unfold join_unique
  have h0 := join_seen names []
  simp only [List.map_nil, List.nil_append] at h0
  rw [h0]
  have hexcl : specDedupExcl [] names = specDedup (names.filter (fun s => s != "")) := by
    rw [specDedupExcl_eq names []]
    congr 1
    refine List.filter_congr fun s _ => ?_
    simp
  rw [hexcl]
  rw [specJoinNames]
  cases hL : specDedup (names.filter (fun s => s != "")) with
  | nil => simp
  | cons d ds =>
    simp [List.map_map, Function.comp, pyStr_str, isStrB]
    have hds : ∀ l : List String, List.map (pyStr ∘ JValue.str) l = l := by
      intro l
      induction l with
      | nil => rfl
      | cons a t ih => simpa [pyStr_str] using ih
    rw [hds]

/-- C9 witness: the general clause at the example name list. -/
theorem c9_witness :
    join_unique (["Solar PV", "Solar PV", "Wind"].map JValue.str)
      = .ok (specJoinNames ["Solar PV", "Solar PV", "Wind"]) :=
  c9_join_unique.1 ["Solar PV", "Solar PV", "Wind"]

theorem charToNat_inj {a b : Char} (h : a.toNat = b.toNat) : a = b :=
  Char.ext (UInt32.toNat.inj h)

theorem lexLt_irrefl (l : List Char) : lexLt l l = false := by
  induction l with
  | nil => rfl
  | cons a t ih => simp [lexLt, ih]

theorem lexLt_asymm : ∀ (a b : List Char), lexLt a b = true → lexLt b a = false
  | [], [] => by simp [lexLt]
  | [], _ :: _ => fun _ => rfl
  | _ :: _, [] => by simp [lexLt]
  | x :: xs, y :: ys => by
    simp only [lexLt, Bool.or_eq_true, Bool.and_eq_true, beq_iff_eq, decide_eq_true_eq]
    intro h
    rcases h with h | ⟨he, hr⟩
    · have h1 : (decide (y.toNat < x.toNat)) = false := decide_eq_false (by omega)
      have h2 : (y.toNat == x.toNat) = false := beq_eq_false_iff_ne.mpr (by omega)
      simp [h1, h2]
    · have h1 : (decide (y.toNat < x.toNat)) = false := decide_eq_false (by omega)
      have h2 : (y.toNat == x.toNat) = true := beq_iff_eq.mpr he.symm
      simp [h1, h2, lexLt_asymm xs ys hr]

theorem lexLt_trans : ∀ (a b c : List Char),
    lexLt a b = true → lexLt b c = true → lexLt a c = true
  | [], [], _ => by simp [lexLt]
  | [], _ :: _, [] => by intro _ h2; simp [lexLt] at h2
  | [], _ :: _, _ :: _ => fun _ _ => rfl
  | _ :: _, [], _ => by intro h1; simp [lexLt] at h1
  | _ :: _, _ :: _, [] => by intro _ h2; simp [lexLt] at h2
  | x :: xs, y :: ys, z :: zs => by
    simp only [lexLt, Bool.or_eq_true, Bool.and_eq_true, beq_iff_eq, decide_eq_true_eq]
    rintro (h1 | ⟨e1, r1⟩) (h2 | ⟨e2, r2⟩)
    · left; omega
    · left; omega
    · left; omega
    · exact Or.inr ⟨by omega, lexLt_trans xs ys zs r1 r2⟩

theorem lexLt_connex : ∀ (a b : List Char),
    lexLt a b = false → lexLt b a = false → a = b
  | [], [] => fun _ _ => rfl
  | [], _ :: _ => by simp [lexLt]
  | _ :: _, [] => by intro _ h2; simp [lexLt] at h2
  | x :: xs, y :: ys => by
    intro h1 h2
    rcases Nat.lt_trichotomy x.toNat y.toNat with hlt | heq | hgt
    · exfalso
      simp [lexLt, hlt] at h1
    · have hx : x = y := charToNat_inj heq
      subst hx
      have hr1 : lexLt xs ys = false := by simpa [lexLt, lexLt_irrefl] using h1
      have hr2 : lexLt ys xs = false := by simpa [lexLt, lexLt_irrefl] using h2
      rw [lexLt_connex xs ys hr1 hr2]
    · exfalso
      simp [lexLt, hgt] at h2

theorem stringData_inj {s t : String} (h : s.data = t.data) : s = t := by
  cases s; cases t; exact congrArg String.mk h

theorem optStrLt_irrefl (o : Option String) : optStrLt o o = false := by
  cases o <;> simp [optStrLt, lexLt_irrefl]

theorem optStrLt_asymm : ∀ {a b : Option String}, optStrLt a b = true → optStrLt b a = false
  | none, none => by simp [optStrLt]
  | none, some _ => by simp [optStrLt]
  | some _, none => fun _ => rfl
  | some a, some b => fun h => lexLt_asymm a.data b.data h

theorem optStrLt_trans : ∀ {a b c : Option String},
    optStrLt a b = true → optStrLt b c = true → optStrLt a c = true
  | none, _, _ => by simp [optStrLt]
  | some _, none, _ => by intro _ h2; simp [optStrLt] at h2
  | some _, some _, none => fun _ _ => rfl
  | some a, some b, some c => fun h1 h2 => lexLt_trans a.data b.data c.data h1 h2

theorem optStrLt_connex : ∀ {a b : Option String},
    optStrLt a b = false → optStrLt b a = false → a = b
  | none, none => fun _ _ => rfl
  | none, some _ => by intro _ h2; simp [optStrLt] at h2
  | some _, none => by simp [optStrLt]
  | some a, some b => fun h1 h2 =>
    congrArg some (stringData_inj (lexLt_connex a.data b.data h1 h2))

theorem keyLt_irrefl (k : Option String × Option String) : keyLt k k = false := by
  simp [keyLt, optStrLt_irrefl]

theorem keyLt_asymm {a b : Option String × Option String}
    (h : keyLt a b = true) : keyLt b a = false := by
  simp only [keyLt, Bool.or_eq_true, Bool.and_eq_true, beq_iff_eq] at h
  rcases h with h | ⟨he, hr⟩
  · have h1 : optStrLt b.1 a.1 = false := optStrLt_asymm h
    have h2 : (b.1 == a.1) = false := by
      rw [beq_eq_false_iff_ne]
      intro he
      rw [he] at h
      simp [optStrLt_irrefl] at h
    simp [keyLt, h1, h2]
  · have h1 : optStrLt b.1 a.1 = false := by rw [← he, optStrLt_irrefl]
    have h2 : (b.1 == a.1) = true := beq_iff_eq.mpr he.symm
    simp [keyLt, h1, h2, optStrLt_asymm hr]

theorem keyLt_trans {a b c : Option String × Option String}
    (h1 : keyLt a b = true) (h2 : keyLt b c = true) : keyLt a c = true := by
  simp only [keyLt, Bool.or_eq_true, Bool.and_eq_true, beq_iff_eq] at h1 h2 ⊢
  rcases h1 with h1 | ⟨e1, r1⟩
  · rcases h2 with h2 | ⟨e2, r2⟩
    · exact Or.inl (optStrLt_trans h1 h2)
    · exact Or.inl (e2 ▸ h1)
  · rcases h2 with h2 | ⟨e2, r2⟩
    · exact Or.inl (e1 ▸ h2)
    · exact Or.inr ⟨e1.trans e2, optStrLt_trans r1 r2⟩

theorem keyLt_connex {a b : Option String × Option String}
    (h1 : keyLt a b = false) (h2 : keyLt b a = false) : a = b := by
  simp only [keyLt, Bool.or_eq_false_iff, Bool.and_eq_false_iff] at h1 h2
  obtain ⟨hl1, hr1⟩ := h1
  obtain ⟨hl2, hr2⟩ := h2
  have he1 : a.1 = b.1 := optStrLt_connex hl1 hl2
  have he2 : a.2 = b.2 := by
    rcases hr1 with hb | hs1
    · rw [beq_eq_false_iff_ne] at hb
      exact absurd he1 hb
    · rcases hr2 with hb | hs2
      · rw [beq_eq_false_iff_ne] at hb
        exact absurd he1.symm hb
      · exact optStrLt_connex hs1 hs2
  exact Prod.ext he1 he2

theorem rowLe_total (a b : ProgramRow) : rowLe a b = true ∨ rowLe b a = true := by
  unfold rowLe
  cases h : keyLt (rowKey b) (rowKey a) with
  | false => exact Or.inl rfl
  | true =>
    right
    rw [keyLt_asymm h]
    rfl

theorem rowLe_trans {a b c : ProgramRow}
    (h1 : rowLe a b = true) (h2 : rowLe b c = true) : rowLe a c = true := by
  unfold rowLe at h1 h2 ⊢
  rw [Bool.not_eq_true'] at h1 h2 ⊢
  cases hac : keyLt (rowKey c) (rowKey a) with
  | false => rfl
  | true =>
    exfalso
    cases hcb : keyLt (rowKey c) (rowKey b) with
    | true => exact absurd hcb (by rw [h2]; simp)
    | false =>
      cases hbc : keyLt (rowKey b) (rowKey c) with
      | true =>
        have := keyLt_trans hbc hac
        rw [h1] at this
        exact Bool.false_ne_true this
      | false =>
        have he := keyLt_connex hbc hcb
        rw [← he] at hac
        rw [h1] at hac
        exact Bool.false_ne_true hac

theorem rowLe_of_keyEq {a b : ProgramRow} (h : rowKey a = rowKey b) : rowLe a b = true := by
  unfold rowLe
  rw [h, keyLt_irrefl]
  rfl

theorem filter_orderedInsert_eqkey (x : ProgramRow) (l : List ProgramRow) :
    (List.orderedInsert rowLeP x l).filter (fun r => rowKey r == rowKey x)
      = x :: l.filter (fun r => rowKey r == rowKey x) := by
  induction l with
  | nil => simp [List.orderedInsert]
  | cons b bs ih =>
    rw [List.orderedInsert]
    by_cases h : rowLeP x b
    · rw [if_pos h]
      simp [List.filter_cons]
    · rw [if_neg h]
      have hk : (rowKey b == rowKey x) = false := by
        rw [beq_eq_false_iff_ne]
        intro he
        exact h (rowLe_of_keyEq he.symm)
      simp [List.filter_cons, hk, ih]

theorem filter_orderedInsert_nekey (x : ProgramRow) (l : List ProgramRow)
    (k : Option String × Option String) (hk : (rowKey x == k) = false) :
    (List.orderedInsert rowLeP x l).filter (fun r => rowKey r == k)
      = l.filter (fun r => rowKey r == k) := by
  induction l with
  | nil => simp [List.orderedInsert, hk]
  | cons b bs ih =>
    rw [List.orderedInsert]
    by_cases h : rowLeP x b
    · rw [if_pos h]
      simp [List.filter_cons, hk]
    · rw [if_neg h]
      simp [List.filter_cons, ih]

theorem filter_sortProgs (k : Option String × Option String) (l : List ProgramRow) :
    (sortProgs l).filter (fun r => rowKey r == k) = l.filter (fun r => rowKey r == k) := by
  induction l with
  | nil => rfl
  | cons x xs ih =>
    show (List.orderedInsert rowLeP x (List.insertionSort rowLeP xs)).filter _ = _
    cases hx : (rowKey x == k) with
    | true =>
      have hkx : rowKey x = k := beq_iff_eq.mp hx
      subst hkx
      rw [filter_orderedInsert_eqkey]
      rw [show List.insertionSort rowLeP xs = sortProgs xs from rfl, ih]
      simp [List.filter_cons]
    | false =>
      rw [filter_orderedInsert_nekey x _ k hx]
      rw [show List.insertionSort rowLeP xs = sortProgs xs from rfl, ih]
      simp [List.filter_cons, hx]

theorem pairwise_orderedInsert {x : ProgramRow} {l : List ProgramRow}
    (h : l.Pairwise rowLeP) : (List.orderedInsert rowLeP x l).Pairwise rowLeP := by
  induction l with
  | nil => simp [List.orderedInsert, List.Pairwise]
  | cons b bs ih =>
    rw [List.pairwise_cons] at h
    obtain ⟨hb, hbs⟩ := h
    rw [List.orderedInsert]
    by_cases hr : rowLeP x b
    · rw [if_pos hr]
      refine List.pairwise_cons.mpr ⟨?_, List.pairwise_cons.mpr ⟨hb, hbs⟩⟩
      intro z hz
      rcases List.mem_cons.mp hz with rfl | hz
      · exact hr
      · exact rowLe_trans hr (hb z hz)
    · rw [if_neg hr]
      refine List.pairwise_cons.mpr ⟨?_, ih hbs⟩
      intro z hz
      rcases (List.mem_orderedInsert rowLeP).mp hz with he | hz
      · subst he
        rcases rowLe_total z b with ht | ht
        · exact absurd ht hr
        · exact ht
      · exact hb z hz

theorem sorted_sortProgs (l : List ProgramRow) : (sortProgs l).Pairwise rowLeP := by
  induction l with
  | nil => exact List.Pairwise.nil
  | cons x xs ih => exact pairwise_orderedInsert ih

/-- C5: whenever `build_tables` succeeds, the programs table is the stable
`(state, program_name)`-ascending nulls-last sort of the rows in encounter
order: the output is pairwise ordered by `rowLe`, each key class keeps the
encounter order (filter by any key is unchanged), a null-state row sorts
after every non-null-state row regardless of name, and the CA/AZ/null
example comes out AZ, CA, null. -/
theorem c5_sorting :
    (∀ (recs : List JValue) (ps : List ProgramRow) (qs : List ParameterRow),
      buildRows recs = .ok (ps, qs) → ps ≠ [] →
      buildTablesRecords recs = .ok (sortProgs ps, qs)
      ∧ (sortProgs ps).Pairwise rowLeP
      ∧ ∀ k : Option String × Option String,
          (sortProgs ps).filter (fun r => rowKey r == k) = ps.filter (fun r => rowKey r == k))
    ∧ (∀ a b : ProgramRow, a.state = none → b.state ≠ none → rowLeP b a)
    ∧ (buildTablesRecords [
        .obj [("Id", .num 1), ("Name", .str "P"), ("State", .str "CA")],
        .obj [("Id", .num 2), ("Name", .str "P"), ("State", .str "AZ")],
        .obj [("Id", .num 3), ("Name", .str "P")]]).map
        (fun t => t.1.map (fun r => (r.state, r.program_id)))
      = .ok [(some "AZ", .int 2), (some "CA", .int 1), (none, .int 3)] := by
  refine ⟨fun recs ps qs hb hne => ?_, fun a b ha hb => ?_, rfl⟩
  · refine ⟨?_, sorted_sortProgs ps, fun k => filter_sortProgs k ps⟩
    unfold buildTablesRecords
    rw [hb, exBind_ok]
    have hemp : ps.isEmpty = false := by
      cases ps with
      | nil => exact absurd rfl hne
      | cons a l => rfl
    simp [hemp, exPure]
  · show rowLe b a = true
    unfold rowLe keyLt rowKey
    rw [ha]
    cases hbs : b.state with
    | none => exact absurd hbs hb
    | some s => simp [optStrLt]

/-- C5 witness: the general clause at the three-record example. -/
theorem c5_witness :
    ∃ ps qs,
      buildRows [
        .obj [("Id", .num 1), ("Name", .str "P"), ("State", .str "CA")],
        .obj [("Id", .num 2), ("Name", .str "P"), ("State", .str "AZ")],
        .obj [("Id", .num 3), ("Name", .str "P")]] = .ok (ps, qs)
      ∧ (sortProgs ps).Pairwise rowLeP := by
  have h := c5_sorting.1
    [JValue.obj [("Id", .num 1), ("Name", .str "P"), ("State", .str "CA")],
     JValue.obj [("Id", .num 2), ("Name", .str "P"), ("State", .str "AZ")],
     JValue.obj [("Id", .num 3), ("Name", .str "P")]] _ _ rfl (by decide)
  exact ⟨_, _, rfl, h.2.1⟩

theorem exMap_ok {α β : Type} (f : α → β) (a : α) :
    (f <$> (Except.ok a : Except Err α)) = .ok (f a) := rfl

theorem exMap_error {α β : Type} (f : α → β) (e : Err) :
    (f <$> (Except.error e : Except Err α)) = .error e := rfl

theorem entryRow_pid {pidC : Pid} {ts ss : List JValue} {p : JValue} {row : ParameterRow}
    (h : entryRow pidC ts ss p = .ok (some row)) : row.program_id = pidC := by
  cases p with
  | obj fs =>
    unfold entryRow at h
    simp only [recordGet, exBind_ok] at h
    split at h
    · simp [exPure] at h
    · split at h
      · simp [exPure] at h
      · cases hjt : join_unique ts with
        | error e => rw [hjt, exBind_error] at h; exact absurd h (by simp)
        | ok tech =>
          rw [hjt, exBind_ok] at h
          cases hjs : join_unique ss with
          | error e => rw [hjs, exBind_error] at h; exact absurd h (by simp)
          | ok sector =>
            rw [hjs, exBind_ok] at h
            cases hq : coerceOptStr (objGet fs "qualifier") with
            | error e => rw [hq, exBind_error] at h; exact absurd h (by simp)
            | ok qual =>
              rw [hq, exBind_ok] at h
              simp only [exPure] at h
              simp only [Except.ok.injEq, Option.some.injEq] at h
              rw [← h]
  | null =>
    rw [show entryRow pidC ts ss JValue.null
      = Except.error "AttributeError: get on non-dict" from rfl] at h
    exact absurd h (by simp)
  | bool b =>
    rw [show entryRow pidC ts ss (JValue.bool b)
      = Except.error "AttributeError: get on non-dict" from rfl] at h
    exact absurd h (by simp)
  | num q =>
    rw [show entryRow pidC ts ss (JValue.num q)
      = Except.error "AttributeError: get on non-dict" from rfl] at h
    exact absurd h (by simp)
  | str s =>
    rw [show entryRow pidC ts ss (JValue.str s)
      = Except.error "AttributeError: get on non-dict" from rfl] at h
    exact absurd h (by simp)
  | arr l =>
    rw [show entryRow pidC ts ss (JValue.arr l)
      = Except.error "AttributeError: get on non-dict" from rfl] at h
    exact absurd h (by simp)

theorem entriesRows_pid {pidC : Pid} {ts ss : List JValue} :
    ∀ {ps : List JValue} {out : List ParameterRow},
      entriesRows pidC ts ss ps = .ok out → ∀ q ∈ out, q.program_id = pidC := by
  intro ps
  induction ps with
  | nil =>
    intro out h q hq
    simp only [entriesRows] at h
    cases h
    simp at hq
  | cons p ps ih =>
    intro out h q hq
    rw [entriesRows_cons] at h
    cases he : entryRow pidC ts ss p with
    | error e => rw [he, exBind_error] at h; exact absurd h (by simp)
    | ok row? =>
      rw [he, exBind_ok] at h
      cases hr : entriesRows pidC ts ss ps with
      | error e => rw [hr, exBind_error] at h; exact absurd h (by simp)
      | ok rest =>
        rw [hr, exBind_ok] at h
        simp only [exPure, Except.ok.injEq] at h
        subst h
        cases row? with
        | none => exact ih hr q hq
        | some row =>
          rcases List.mem_cons.mp hq with rfl | hq2
          · exact entryRow_pid he
          · exact ih hr q hq2

theorem mkProgramRow_pid {pidC : Pid} {r : JValue}
    {flat : Option String × Option String × Option String × Option String × Option String}
    {detm : List (String × String)} {pr : ProgramRow}
    (h : mkProgramRow pidC r flat detm = .ok pr) : pr.program_id = pidC := by
  obtain ⟨tn, tc, sn, un, ue⟩ := flat
  unfold mkProgramRow at h
  simp only at h
  cases hs : scalarCols r with
  | error e => rw [hs, exBind_error] at h; exact absurd h (by simp)
  | ok sc =>
    rw [hs, exBind_ok] at h
    simp only [exPure, Except.ok.injEq] at h
    rw [← h]

theorem groupsRows_cons (pidC : Pid) (pp : JValue) (rest : List JValue) :
    groupsRows pidC (pp :: rest) = do
      let ts ← pyIter (pyOr (← recordGet pp "technologies") (.arr []))
      let techScope ← ts.mapM (fun t => recordGet t "name")
      let ss ← pyIter (pyOr (← recordGet pp "sectors") (.arr []))
      let sectorScope ← ss.mapM (fun s => recordGet s "name")
      let ps ← pyIter (pyOr (← recordGet pp "parameters") (.arr []))
      let rows ← entriesRows pidC techScope sectorScope ps
      let more ← groupsRows pidC rest
      return rows ++ more := rfl

theorem groupsRows_pid {pidC : Pid} :
    ∀ {pps : List JValue} {out : List ParameterRow},
      groupsRows pidC pps = .ok out → ∀ q ∈ out, q.program_id = pidC := by
  intro pps
  induction pps with
  | nil =>
    intro out h q hq
    simp only [groupsRows] at h
    cases h
    simp at hq
  | cons pp rest ih =>
    intro out h q hq
    rw [groupsRows_cons] at h
    cases hg1 : recordGet pp "technologies" with
    | error e => rw [hg1, exBind_error] at h; exact absurd h (by simp)
    | ok v1 =>
    rw [hg1, exBind_ok] at h
    cases hi1 : pyIter (pyOr v1 (.arr [])) with
    | error e => rw [hi1, exBind_error] at h; exact absurd h (by simp)
    | ok ts =>
    rw [hi1, exBind_ok] at h
    cases hm1 : ts.mapM (fun t => recordGet t "name") with
    | error e => rw [hm1, exBind_error] at h; exact absurd h (by simp)
    | ok techScope =>
    rw [hm1, exBind_ok] at h
    cases hg2 : recordGet pp "sectors" with
    | error e => rw [hg2, exBind_error] at h; exact absurd h (by simp)
    | ok v2 =>
    rw [hg2, exBind_ok] at h
    cases hi2 : pyIter (pyOr v2 (.arr [])) with
    | error e => rw [hi2, exBind_error] at h; exact absurd h (by simp)
    | ok ss =>
    rw [hi2, exBind_ok] at h
    cases hm2 : ss.mapM (fun s => recordGet s "name") with
    | error e => rw [hm2, exBind_error] at h; exact absurd h (by simp)
    | ok sectorScope =>
    rw [hm2, exBind_ok] at h
    cases hg3 : recordGet pp "parameters" with
    | error e => rw [hg3, exBind_error] at h; exact absurd h (by simp)
    | ok v3 =>
    rw [hg3, exBind_ok] at h
    cases hi3 : pyIter (pyOr v3 (.arr [])) with
    | error e => rw [hi3, exBind_error] at h; exact absurd h (by simp)
    | ok ps =>
    rw [hi3, exBind_ok] at h
    cases her : entriesRows pidC techScope sectorScope ps with
    | error e => rw [her, exBind_error] at h; exact absurd h (by simp)
    | ok rows =>
    rw [her, exBind_ok] at h
    cases hgr : groupsRows pidC rest with
    | error e => rw [hgr, exBind_error] at h; exact absurd h (by simp)
    | ok more =>
    rw [hgr, exBind_ok] at h
    simp only [exPure, Except.ok.injEq] at h
    subst h
    rcases List.mem_append.mp hq with hq1 | hq2
    · exact entriesRows_pid her q hq1
    · exact ih hgr q hq2

theorem processRecord_obj (fs : List (String × JValue)) :
    processRecord (.obj fs) =
      if isNull (resolvePid fs) = true then pure ([], [])
      else do
        let flat ← stageFlatten (.obj fs)
        let detm ← stageDetails (.obj fs)
        let pidC ← pidCoerce (resolvePid fs)
        let pr ← mkProgramRow pidC (.obj fs) flat detm
        let inc := oOr (oOr (dget detm "Incentive Amount") (dget detm "Incentive")) (dget detm "Benefit Details")
        let mx := dget detm "Maximum Incentive"
        let pps ← pyIter (pyOr (← recordGet (.obj fs) "ProgramParameters") (.arr []))
        let structRows ← groupsRows pidC pps
        let hits1 ← extract_amounts_any inc
        let hits2 ← extract_amounts_any mx
        return ([pr],
          structRows ++ hits1.map (mkDerived pidC)
            ++ hits2.map (mkDerivedMax pidC)) := rfl

theorem buildRows_cons2 (r : JValue) (rs : List JValue) :
    buildRows (r :: rs) = (processRecord r) >>= fun a =>
      (buildRows rs) >>= fun b => pure (a.1 ++ b.1, a.2 ++ b.2) := rfl

theorem buildTablesRecords_eq (recs : List JValue) :
    buildTablesRecords recs = (buildRows recs) >>= fun pq =>
      if pq.1.isEmpty then .error "KeyError: state" else pure (sortProgs pq.1, pq.2) := rfl

theorem processRecord_fk {r : JValue} {ps : List ProgramRow} {qs : List ParameterRow}
    (h : processRecord r = .ok (ps, qs)) :
    ∀ q ∈ qs, ∃ pr ∈ ps, pr.program_id = q.program_id := by
  cases r with
  | obj fs =>
    rw [processRecord_obj fs] at h
    cases hn : isNull (resolvePid fs) with
    | true =>
      rw [if_pos hn] at h
      simp only [exPure, Except.ok.injEq, Prod.mk.injEq] at h
      obtain ⟨_, hqs⟩ := h
      subst hqs
      intro q hq
      simp at hq
    | false =>
      rw [if_neg (by simp [hn])] at h
      cases hf : stageFlatten (.obj fs) with
      | error e => rw [hf, exBind_error] at h; exact absurd h (by simp)
      | ok flat =>
      rw [hf, exBind_ok] at h
      cases hd : stageDetails (.obj fs) with
      | error e => rw [hd, exBind_error] at h; exact absurd h (by simp)
      | ok detm =>
      rw [hd, exBind_ok] at h
      cases hp : pidCoerce (resolvePid fs) with
      | error e => rw [hp, exBind_error] at h; exact absurd h (by simp)
      | ok pidC =>
      rw [hp, exBind_ok] at h
      cases hm : mkProgramRow pidC (.obj fs) flat detm with
      | error e => rw [hm, exBind_error] at h; exact absurd h (by simp)
      | ok pr =>
      rw [hm, exBind_ok] at h
      cases hg : recordGet (.obj fs) "ProgramParameters" with
      | error e => rw [hg, exBind_error] at h; exact absurd h (by simp)
      | ok v =>
      rw [hg, exBind_ok] at h
      cases hi : pyIter (pyOr v (.arr [])) with
      | error e => rw [hi, exBind_error] at h; exact absurd h (by simp)
      | ok pps =>
      rw [hi, exBind_ok] at h
      cases hgr : groupsRows pidC pps with
      | error e => rw [hgr, exBind_error] at h; exact absurd h (by simp)
      | ok structRows =>
      rw [hgr, exBind_ok] at h
      cases he1 : extract_amounts_any (oOr (oOr (dget detm "Incentive Amount")
          (dget detm "Incentive")) (dget detm "Benefit Details")) with
      | error e => rw [he1, exBind_error] at h; exact absurd h (by simp)
      | ok hits1 =>
      rw [he1, exBind_ok] at h
      cases he2 : extract_amounts_any (dget detm "Maximum Incentive") with
      | error e => rw [he2, exBind_error] at h; exact absurd h (by simp)
      | ok hits2 =>
      rw [he2, exBind_ok] at h
      simp only [exPure, Except.ok.injEq, Prod.mk.injEq] at h
      obtain ⟨hps, hqs⟩ := h
      subst hps
      subst hqs
      intro q hq
      have hqpid : q.program_id = pidC := by
        rcases List.mem_append.mp hq with hq1 | hq2
        · rcases List.mem_append.mp hq1 with hq3 | hq4
          · exact groupsRows_pid hgr q hq3
          · obtain ⟨hit, _, hq5⟩ := List.mem_map.mp hq4
            rw [← hq5]
            rfl
        · obtain ⟨hit, _, hq5⟩ := List.mem_map.mp hq2
          rw [← hq5]
          rfl
      exact ⟨pr, List.mem_singleton_self pr, by rw [mkProgramRow_pid hm, hqpid]⟩
  | null =>
    rw [show processRecord JValue.null = Except.error "AttributeError: get on non-dict" from rfl] at h
    exact absurd h (by simp)
  | bool b =>
    rw [show processRecord (JValue.bool b) = Except.error "AttributeError: get on non-dict" from rfl] at h
    exact absurd h (by simp)
  | num n =>
    rw [show processRecord (JValue.num n) = Except.error "AttributeError: get on non-dict" from rfl] at h
    exact absurd h (by simp)
  | str s =>
    rw [show processRecord (JValue.str s) = Except.error "AttributeError: get on non-dict" from rfl] at h
    exact absurd h (by simp)
  | arr l =>
    rw [show processRecord (JValue.arr l) = Except.error "AttributeError: get on non-dict" from rfl] at h
    exact absurd h (by simp)

theorem buildRows_fk :
    ∀ {recs : List JValue} {ps : List ProgramRow} {qs : List ParameterRow},
      buildRows recs = .ok (ps, qs) →
      ∀ q ∈ qs, ∃ pr ∈ ps, pr.program_id = q.program_id := by
  intro recs
  induction recs with
  | nil =>
    intro ps qs h q hq
    simp only [buildRows] at h
    cases h
    simp at hq
  | cons r rs ih =>
    intro ps qs h q hq
    rw [buildRows_cons2] at h
    cases hr : processRecord r with
    | error e => rw [hr, exBind_error] at h; exact absurd h (by simp)
    | ok pq1 =>
    rw [hr, exBind_ok] at h
    cases hrs : buildRows rs with
    | error e => rw [hrs, exBind_error] at h; exact absurd h (by simp)
    | ok pq2 =>
    rw [hrs, exBind_ok] at h
    simp only [exPure, Except.ok.injEq, Prod.mk.injEq] at h
    obtain ⟨hps, hqs⟩ := h
    subst hps
    subst hqs
    rcases List.mem_append.mp hq with hq1 | hq2
    · obtain ⟨pr, hpr, hpid⟩ := processRecord_fk (by rw [hr]) q hq1
      exact ⟨pr, List.mem_append_left _ hpr, hpid⟩
    · obtain ⟨pr, hpr, hpid⟩ := ih (by rw [hrs]) q hq2
      exact ⟨pr, List.mem_append_right _ hpr, hpid⟩

/-- C2: whenever `build_tables` succeeds, every program row carries a
non-null `program_id` (the pydantic `int | str` join key) and every
parameter row's `program_id` equals the `program_id` of some program row —
the join never produces orphaned parameter rows. -/
theorem c2_program_id_fk :
    ∀ (recs : List JValue) (t : List ProgramRow × List ParameterRow),
      buildTablesRecords recs = .ok t →
      (∀ pr ∈ t.1, pidToJ pr.program_id ≠ .null)
      ∧ ∀ q ∈ t.2, ∃ pr ∈ t.1, pr.program_id = q.program_id := by
  intro recs t h
  rw [buildTablesRecords_eq] at h
  cases hb : buildRows recs with
  | error e => rw [hb, exBind_error] at h; exact absurd h (by simp)
  | ok pq =>
  obtain ⟨ps, qs⟩ := pq
  rw [hb, exBind_ok] at h
  cases hemp : ps.isEmpty with
  | true => rw [if_pos (by simp [hemp])] at h; exact absurd h (by simp)
  | false =>
    rw [if_neg (by simp [hemp])] at h
    simp only [exPure, Except.ok.injEq] at h
    subst h
    constructor
    · intro pr _
      cases pr.program_id <;> simp [pidToJ]
    · intro q hq
      obtain ⟨pr, hpr, hpid⟩ := buildRows_fk hb q hq
      refine ⟨pr, ?_, hpid⟩
      exact ((List.perm_insertionSort rowLeP ps).mem_iff).mpr hpr

/-- C2 witness: a record with one structured parameter; its parameter row
joins back to its program row. -/
theorem c2_witness :
    ∃ t, buildTablesRecords [.obj [("Id", .num 1),
        ("ProgramParameters", .arr [.obj [("parameters",
          .arr [.obj [("amount", .num 2), ("units", .str "$/kW")]])]])]] = .ok t
      ∧ ∀ q ∈ t.2, ∃ pr ∈ t.1, pr.program_id = q.program_id := by
  have h := c2_program_id_fk [.obj [("Id", .num 1),
    ("ProgramParameters", .arr [.obj [("parameters",
      .arr [.obj [("amount", .num 2), ("units", .str "$/kW")]])]])]] _ rfl
  exact ⟨_, rfl, h.2⟩

